import Mathlib

/-!
Shallow embedding of the core logic of the OpenGL model viewer
(source/main.cpp): the orbit-camera math (CalculateCameraPosition,
ProcessInput) and the minimal OBJ loader (LoadObjFile), together with
theorems settling the specification claims about them.

Modelling conventions:
* C++ float arithmetic and trigonometry are idealised over the reals.
* The OBJ loader works on text; coordinates parsed from v and vn lines
  are modelled as exact decimal rationals.
* Code that throws (std::stoi, std::string::substr, failing to open the
  file) is modelled with Except.  Out-of-bounds std::vector::operator[]
  access, which is undefined behaviour in C++, is modelled as a checked
  lookup returning a bounds error.
* std::size_t values (std::string::npos and the arithmetic on it) are
  modelled as Nat with explicit reduction mod 2 ^ 64 where the C++ code
  relies on wrap-around.
-/

namespace ModelViewer

/-- Component type of glm::vec3 as stored by the loader, idealised as an
exact rational instead of an IEEE float. -/
abbrev Scalar : Type := ℚ

/-- glm::vec3 as used by the OBJ loader. -/
structure Vec3 where
  x : Scalar
  y : Scalar
  z : Scalar
deriving DecidableEq

/-- struct Vertex from main.cpp: a position paired with a normal. -/
structure Vertex where
  position : Vec3
  normal : Vec3
deriving DecidableEq

/-- The ways LoadObjFile can throw, one constructor per C++ exception
source: failing to open the file, std::stoi on a non-numeric string
(std::invalid_argument), std::string::substr with a start position past
the end (std::out_of_range), and an out-of-bounds vector element access
(undefined behaviour in the C++, modelled as a distinct bounds error). -/
inductive ObjError where
  | openFailed
  | invalidArgument
  | outOfRange
  | indexOutOfBounds
deriving DecidableEq

/-- The three accumulators of the parsing loop in LoadObjFile:
positions, normals, and the flat vertex output built so far. -/
structure ParseState where
  positions : List Vec3
  normals : List Vec3
  vertices : List Vertex
deriving DecidableEq

/-- Characters treated as whitespace by operator>> in the default
locale: space, horizontal tab, newline, vertical tab, form feed,
carriage return. -/
def isCppSpace (c : Char) : Bool :=
  c = ' ' || c = '\t' || c = '\n' || c = '\r' || c.toNat = 11 || c.toNat = 12

/-- Splitting a character list at whitespace into maximal non-empty
runs; the second argument holds the characters of the current token in
reverse. -/
def tokenizeAux : List Char → List Char → List String
  | [], acc =>
    match acc with
    | [] => []
    | _ :: _ => [⟨acc.reverse⟩]
  | c :: rest, acc =>
    if isCppSpace c then
      match acc with
      | [] => tokenizeAux rest []
      | _ :: _ => ⟨acc.reverse⟩ :: tokenizeAux rest []
    else tokenizeAux rest (c :: acc)

/-- The whitespace-separated tokens of a line, in order: the successive
strings extracted by repeated operator>> on the istringstream. -/
def tokenize (s : String) : List String :=
  tokenizeAux s.toList []

/-- Numeric value of a run of decimal digit characters. -/
def digitsVal (cs : List Char) : Nat :=
  cs.foldl (fun a c => 10 * a + (c.toNat - 48)) 0

/-- Model of extracting a float from one whitespace-separated token
(operator>> into a float): optional sign, decimal digits with an
optional fractional part, read as an exact rational.  Returns none when
no number can be read; an exponent suffix and other trailing characters
are ignored, as the claims never exercise them. -/
def parseUnsignedDecimal (cs : List Char) : Option ℚ :=
  let intDigits := cs.takeWhile Char.isDigit
  let afterInt := cs.dropWhile Char.isDigit
  match afterInt with
  | '.' :: fr =>
    let fracDigits := fr.takeWhile Char.isDigit
    if intDigits.isEmpty && fracDigits.isEmpty then none
    else some
      ((digitsVal intDigits : ℚ) + (digitsVal fracDigits : ℚ) / 10 ^ fracDigits.length)
  | _ =>
    if intDigits.isEmpty then none
    else some (digitsVal intDigits : ℚ)

def parseDecimal (cs : List Char) : Option ℚ :=
  match cs with
  | '-' :: r => (parseUnsignedDecimal r).map (fun q => -q)
  | '+' :: r => parseUnsignedDecimal r
  | r => parseUnsignedDecimal r

/-- Value stored in a float after extracting the given optional token:
a missing token or a failed extraction leaves 0 (C++11 zeroes the target
on failure; the subsequent indeterminate reads after a stream enters the
fail state are likewise modelled as 0). -/
def ratOfArg : Option String → ℚ
  | none => 0
  | some t => (parseDecimal t.toList).getD 0

/-- Reading three floats from the remaining tokens of a v or vn line. -/
def readVec3 (args : List String) : Vec3 :=
  ⟨ratOfArg (args.get? 0), ratOfArg (args.get? 1), ratOfArg (args.get? 2)⟩

/-- std::stoi on a token: skip leading whitespace, optional sign, then
a non-empty maximal run of decimal digits (trailing characters ignored);
throws std::invalid_argument when no digits are found.  Integer overflow
(std::out_of_range on huge literals) is not modelled; the result is an
unbounded Int. -/
def stoiE (cs : List Char) : Except ObjError Int :=
  let cs1 := cs.dropWhile (fun c => isCppSpace c)
  let sgnRest : Int × List Char :=
    match cs1 with
    | '-' :: r => (-1, r)
    | '+' :: r => (1, r)
    | r => (1, r)
  let ds := sgnRest.2.takeWhile Char.isDigit
  if ds.isEmpty then .error .invalidArgument
  else .ok (sgnRest.1 * (digitsVal ds : Int))

/-- std::string::npos for a 64-bit std::size_t. -/
def nposVal : Nat := 2 ^ 64 - 1

/-- vertex.find two slashes: index of the first occurrence of a double
slash starting from offset i, or none. -/
def findDoubleSlash : List Char → Nat → Option Nat
  | '/' :: '/' :: _, i => some i
  | _ :: rest, i => findDoubleSlash rest (i + 1)
  | [], _ => none

/-- The face-token computation of LoadObjFile, faithful to the C++:
separatorIndex is find of the double slash, npos when absent;
positionIndex is stoi of substr(0, separatorIndex) minus one (the count
argument of substr is clamped to the string size); normalIndex is stoi
of substr(separatorIndex + 2) minus one, where the start position is a
std::size_t so npos + 2 wraps to 1 mod 2 ^ 64, and substr throws
std::out_of_range when the start exceeds the string length. -/
def parseFaceToken (tok : String) : Except ObjError (Int × Int) :=
  let cs := tok.toList
  let sepIdx := (findDoubleSlash cs 0).getD nposVal
  match stoiE (cs.take sepIdx) with
  | .error e => .error e
  | .ok pRaw =>
    let nStart := (sepIdx + 2) % 2 ^ 64
    if nStart ≤ cs.length then
      match stoiE (cs.drop nStart) with
      | .error e => .error e
      | .ok nRaw => .ok (pRaw - 1, nRaw - 1)
    else .error .outOfRange

/-- Element access positions[i] / normals[i] with an int index.
Out-of-bounds std::vector::operator[] is undefined behaviour in the
C++ source; the embedding makes it a checked lookup that fails with a
bounds error. -/
def vecIndex (l : List Vec3) (i : Int) : Except ObjError Vec3 :=
  if h : 0 ≤ i ∧ i.toNat < l.length then .ok (l.get ⟨i.toNat, h.2⟩)
  else .error .indexOutOfBounds

/-- One iteration of the face loop: parse the token into the two
decremented indices, then look the position and the normal up. -/
def resolveFaceToken (ps ns : List Vec3) (tok : String) : Except ObjError Vertex :=
  match parseFaceToken tok with
  | .error e => .error e
  | .ok (p, n) =>
    match vecIndex ps p with
    | .error e => .error e
    | .ok pos =>
      match vecIndex ns n with
      | .error e => .error e
      | .ok nor => .ok ⟨pos, nor⟩

/-- Dispatch on the first token of a non-skipped line: v appends a
position, vn appends a normal, f reads three face tokens (a missing
token is the empty string, as a failed string extraction leaves the
target cleared) and appends the three resolved vertices in token order;
any other first token leaves the state unchanged. -/
def processTokens (st : ParseState) (toks : List String) : Except ObjError ParseState :=
  let pfx := (toks.head?).getD ""
  let args := toks.tail
  if pfx = "v" then
    .ok { st with positions := st.positions ++ [readVec3 args] }
  else if pfx = "vn" then
    .ok { st with normals := st.normals ++ [readVec3 args] }
  else if pfx = "f" then
    match resolveFaceToken st.positions st.normals ((args.get? 0).getD ""),
          resolveFaceToken st.positions st.normals ((args.get? 1).getD ""),
          resolveFaceToken st.positions st.normals ((args.get? 2).getD "") with
    | .ok v0, .ok v1, .ok v2 =>
      .ok { st with vertices := st.vertices ++ [v0, v1, v2] }
    | .error e, _, _ => .error e
    | .ok _, .error e, _ => .error e
    | .ok _, .ok _, .error e => .error e
  else .ok st

/-- One iteration of the getline loop: an empty line or a line whose
first character is a hash is skipped, anything else is tokenized and
dispatched. -/
def processLine (st : ParseState) (line : String) : Except ObjError ParseState :=
  match line.toList with
  | [] => .ok st
  | c :: _ => if c = '#' then .ok st else processTokens st (tokenize line)

/-- The whole getline loop over the lines of the file, returning the
flat vertex list on success. -/
def processLines : ParseState → List String → Except ObjError (List Vertex)
  | st, [] => .ok st.vertices
  | st, l :: rest =>
    match processLine st l with
    | .ok st2 => processLines st2 rest
    | .error e => .error e

/-- LoadObjFile: the file system is modelled by an optional line list,
none when the file cannot be opened, in which case the function throws
(Failed to open OBJ file); otherwise the parsing loop runs over the
lines. -/
def LoadObjFile (file : Option (List String)) : Except ObjError (List Vertex) :=
  match file with
  | none => .error .openFailed
  | some lines => processLines ⟨[], [], []⟩ lines

/-! ## Orbit camera, over the reals -/

/-- glm::vec3 as used by the camera math, idealised over the reals. -/
structure Vec3R where
  x : ℝ
  y : ℝ
  z : ℝ

/-- Componentwise vector addition (glm::vec3 operator+). -/
def vaddR (a b : Vec3R) : Vec3R := ⟨a.x + b.x, a.y + b.y, a.z + b.z⟩

/-- Componentwise vector subtraction (glm::vec3 operator-). -/
def vsubR (a b : Vec3R) : Vec3R := ⟨a.x - b.x, a.y - b.y, a.z - b.z⟩

/-- Euclidean norm of a vector. -/
noncomputable def normR (v : Vec3R) : ℝ :=
  Real.sqrt (v.x ^ 2 + v.y ^ 2 + v.z ^ 2)

/-- glm::radians: degrees to radians. -/
noncomputable def radians (deg : ℝ) : ℝ := deg * Real.pi / 180

/-- CalculateCameraPosition from main.cpp: spherical coordinates
(distance, azimuth, elevation) converted to a Cartesian offset from the
target, Y up. -/
noncomputable def CalculateCameraPosition
    (distanceFromTarget azimuth elevation : ℝ) (target : Vec3R) : Vec3R :=
  let x := distanceFromTarget * Real.cos elevation * Real.sin azimuth
  let y := distanceFromTarget * Real.sin elevation
  let z := distanceFromTarget * Real.cos elevation * Real.cos azimuth
  vaddR target ⟨x, y, z⟩

/-- The keys ProcessInput reads (escape only closes the window and does
not touch the orbit state, so it is omitted). -/
structure Keys where
  keyA : Bool
  keyD : Bool
  keyW : Bool
  keyS : Bool
  keyQ : Bool
  keyE : Bool

/-- The three scalars ProcessInput mutates through references. -/
structure OrbitState where
  distanceFromTarget : ℝ
  azimuth : ℝ
  elevation : ℝ

def cameraRotationSpeed : ℝ := 2
def cameraZoomSpeed : ℝ := 5

/-- ProcessInput from main.cpp: the six key branches applied in source
order (A, D, W, S, Q, E), with the distance clamps at 0.5 and 20 and the
elevation clamps at plus and minus 89 degrees in radians. -/
noncomputable def ProcessInput (k : Keys) (dt : ℝ) (st : OrbitState) : OrbitState :=
  let az1 := if k.keyA then st.azimuth - cameraRotationSpeed * dt else st.azimuth
  let az2 := if k.keyD then az1 + cameraRotationSpeed * dt else az1
  let di1 := if k.keyW then
      (let v := st.distanceFromTarget - cameraZoomSpeed * dt
       if v < 0.5 then 0.5 else v)
    else st.distanceFromTarget
  let di2 := if k.keyS then
      (let v := di1 + cameraZoomSpeed * dt
       if v > 20 then 20 else v)
    else di1
  let el1 := if k.keyQ then
      (let v := st.elevation + cameraRotationSpeed * dt
       if v > radians 89 then radians 89 else v)
    else st.elevation
  let el2 := if k.keyE then
      (let v := el1 - cameraRotationSpeed * dt
       if v < radians (-89) then radians (-89) else v)
    else el1
  ⟨di2, az2, el2⟩

/-- A sequence of frames: ProcessInput folded over a list of (keys,
deltaTime) pairs. -/
noncomputable def runInputs (st : OrbitState) (inputs : List (Keys × ℝ)) : OrbitState :=
  inputs.foldl (fun s p => ProcessInput p.1 p.2 s) st

end ModelViewer

namespace ModelViewer

/-- A line the loader ignores: empty, first character a hash, or first
token none of v, vn, f. -/
def IgnorableLine (line : String) : Prop :=
  line.toList = [] ∨ line.toList.head? = some '#' ∨
    ((tokenize line).head?).getD "" ∉ (["v", "vn", "f"] : List String)

/-- An OBJ file with 4 v lines, 4 vn lines and 4 triangular f lines. -/
def objFileExample : List String :=
  ["v 0 0 0", "v 1 0 0", "v 0 1 0", "v 0 0 1",
   "vn 1 0 0", "vn 0 1 0", "vn 0 0 1", "vn 1 1 1",
   "f 1//1 2//2 3//3", "f 1//2 2//3 3//4", "f 2//1 3//2 4//3", "f 4//4 3//3 2//2"]

/-- The 12 vertices of objFileExample: one triple per f line in token
order, each corner pairing the 1-based referenced position and normal. -/
def objExpectedVertices : List Vertex :=
  [⟨⟨0, 0, 0⟩, ⟨1, 0, 0⟩⟩, ⟨⟨1, 0, 0⟩, ⟨0, 1, 0⟩⟩, ⟨⟨0, 1, 0⟩, ⟨0, 0, 1⟩⟩,
   ⟨⟨0, 0, 0⟩, ⟨0, 1, 0⟩⟩, ⟨⟨1, 0, 0⟩, ⟨0, 0, 1⟩⟩, ⟨⟨0, 1, 0⟩, ⟨1, 1, 1⟩⟩,
   ⟨⟨1, 0, 0⟩, ⟨1, 0, 0⟩⟩, ⟨⟨0, 1, 0⟩, ⟨0, 1, 0⟩⟩, ⟨⟨0, 0, 1⟩, ⟨0, 0, 1⟩⟩,
   ⟨⟨0, 0, 1⟩, ⟨1, 1, 1⟩⟩, ⟨⟨0, 1, 0⟩, ⟨0, 0, 1⟩⟩, ⟨⟨1, 0, 0⟩, ⟨0, 1, 0⟩⟩]

/-! ## Claims -/

/-- C1: for every distance d, azimuth a, elevation e, and target T,
CalculateCameraPosition returns T + (x, y, z) with
x = d cos e sin a, y = d sin e, z = d cos e cos a. -/
theorem camera_position_components (d a e : ℝ) (T : Vec3R) :
    CalculateCameraPosition d a e T =
      vaddR T ⟨d * Real.cos e * Real.sin a, d * Real.sin e,
               d * Real.cos e * Real.cos a⟩ := rfl

/-- C2: for every elevation in the clamped range, every azimuth, every
(nonnegative) distance d, and every target, the eye point returned by
CalculateCameraPosition lies at Euclidean distance exactly d from the
target.  Distances are nonnegative by the data model (the orbit state
keeps the distance in the interval from 0.5 to 20). -/
theorem camera_eye_at_distance (d a e : ℝ) (T : Vec3R)
    (hd : 0 ≤ d) (h1 : radians (-89) ≤ e) (h2 : e ≤ radians 89) :
    normR (vsubR (CalculateCameraPosition d a e T) T) = d := by
  simp only [CalculateCameraPosition, vaddR, vsubR, normR]
  have key : (T.x + d * Real.cos e * Real.sin a - T.x) ^ 2 +
      (T.y + d * Real.sin e - T.y) ^ 2 +
      (T.z + d * Real.cos e * Real.cos a - T.z) ^ 2 = d ^ 2 := by
    have ha := Real.sin_sq_add_cos_sq a
    have he := Real.sin_sq_add_cos_sq e
    linear_combination (d ^ 2 * Real.cos e ^ 2) * ha + d ^ 2 * he
  rw [key, Real.sqrt_sq hd]

/-- Witness for C2 at distance 5, azimuth 0, elevation 0, target the
origin. -/
theorem camera_eye_at_distance_witness :
    (0 : ℝ) ≤ 5 ∧ radians (-89) ≤ 0 ∧ (0 : ℝ) ≤ radians 89 ∧
      normR (vsubR (CalculateCameraPosition 5 0 0 ⟨0, 0, 0⟩) ⟨0, 0, 0⟩) = 5 := by
  have hpi := Real.pi_pos
  have hlo : radians (-89) ≤ (0 : ℝ) := by
    simp only [radians]; nlinarith
  have hhi : (0 : ℝ) ≤ radians 89 := by
    simp only [radians]; nlinarith
  exact ⟨by norm_num, hlo, hhi,
    camera_eye_at_distance 5 0 0 ⟨0, 0, 0⟩ (by norm_num) hlo hhi⟩

/-- C3: at distance 5, azimuth 0, elevation 0, target the origin,
CalculateCameraPosition returns exactly (0, 0, 5). -/
theorem camera_position_example :
    CalculateCameraPosition 5 0 0 ⟨0, 0, 0⟩ = ⟨0, 0, 5⟩ := by
  simp [CalculateCameraPosition, vaddR]

/-- C6: when the file cannot be opened (modelled as none) LoadObjFile
fails with the open error and returns no vertex sequence; conversely a
successful run implies the file opened. -/
theorem load_fails_without_file (file : Option (List String)) :
    (file = none → LoadObjFile file = .error .openFailed) ∧
    (∀ vs, LoadObjFile file = .ok vs → file ≠ none) := by
  constructor
  · intro h
    subst h
    rfl
  · intro vs h hn
    subst hn
    simp [LoadObjFile] at h

/-- Witness for C6: the unopened file fails with the open error. -/
theorem load_fails_without_file_witness :
    LoadObjFile none = .error .openFailed :=
  (load_fails_without_file none).1 rfl

end ModelViewer

namespace ModelViewer

/-- One ProcessInput step keeps a clamped elevation clamped. -/
theorem elevation_step (k : Keys) (dt : ℝ) (st : OrbitState) (hdt : 0 ≤ dt)
    (h1 : radians (-89) ≤ st.elevation) (h2 : st.elevation ≤ radians 89) :
    radians (-89) ≤ (ProcessInput k dt st).elevation ∧
      (ProcessInput k dt st).elevation ≤ radians 89 := by
  have hpi := Real.pi_pos
  simp only [ProcessInput, cameraRotationSpeed, cameraZoomSpeed]
  simp only [radians] at *
  split_ifs <;> constructor <;> linarith

/-- One ProcessInput step keeps a clamped distance clamped. -/
theorem distance_step (k : Keys) (dt : ℝ) (st : OrbitState) (hdt : 0 ≤ dt)
    (h1 : 0.5 ≤ st.distanceFromTarget) (h2 : st.distanceFromTarget ≤ 20) :
    0.5 ≤ (ProcessInput k dt st).distanceFromTarget ∧
      (ProcessInput k dt st).distanceFromTarget ≤ 20 := by
  simp only [ProcessInput, cameraRotationSpeed, cameraZoomSpeed]
  split_ifs <;> constructor <;> linarith

end ModelViewer

namespace ModelViewer

/-- C4: starting from any elevation within the clamp range, any
sequence of ProcessInput frames with nonnegative deltaTime and any keys
keeps the elevation within plus and minus 89 degrees (every prefix of a
sequence is itself such a sequence, so the bound holds after each step);
moreover a frame whose elevation input overshoots a limit lands exactly
on the corresponding bound. -/
theorem elevation_clamped :
    (∀ (st : OrbitState) (inputs : List (Keys × ℝ)),
        radians (-89) ≤ st.elevation → st.elevation ≤ radians 89 →
        (∀ p ∈ inputs, 0 ≤ p.2) →
        radians (-89) ≤ (runInputs st inputs).elevation ∧
          (runInputs st inputs).elevation ≤ radians 89) ∧
    (∀ (k : Keys) (dt : ℝ) (st : OrbitState), 0 ≤ dt →
        k.keyQ = true → k.keyE = false →
        radians 89 < st.elevation + cameraRotationSpeed * dt →
        (ProcessInput k dt st).elevation = radians 89) ∧
    (∀ (k : Keys) (dt : ℝ) (st : OrbitState), 0 ≤ dt →
        k.keyQ = false → k.keyE = true →
        st.elevation - cameraRotationSpeed * dt < radians (-89) →
        (ProcessInput k dt st).elevation = radians (-89)) := by
  refine ⟨?_, ?_, ?_⟩
  · intro st inputs h1 h2 hdt
    induction inputs generalizing st with
    | nil => exact ⟨h1, h2⟩
    | cons p rest ih =>
      have hstep := elevation_step p.1 p.2 st (hdt p (List.mem_cons_self p rest)) h1 h2
      have hrest : ∀ q ∈ rest, 0 ≤ q.2 := fun q hq => hdt q (List.mem_cons_of_mem p hq)
      simpa [runInputs] using ih (ProcessInput p.1 p.2 st) hstep.1 hstep.2 hrest
  · intro k dt st hdt hq he hover
    simp only [ProcessInput, hq, he] at *
    simp [hover]
  · intro k dt st hdt hq he hover
    simp only [ProcessInput, hq, he] at *
    simp [hover]

/-- Witness for C4: one all-keys frame of one second from the initial
state, and single overshooting frames for each clamp. -/
theorem elevation_clamped_witness :
    (radians (-89) ≤ (runInputs ⟨5, 0, 0⟩
        [(⟨true, true, true, true, true, true⟩, 1)]).elevation ∧
      (runInputs ⟨5, 0, 0⟩
        [(⟨true, true, true, true, true, true⟩, 1)]).elevation ≤ radians 89) ∧
    (ProcessInput ⟨false, false, false, false, true, false⟩ 1 ⟨5, 0, 0⟩).elevation
        = radians 89 ∧
    (ProcessInput ⟨false, false, false, false, false, true⟩ 1 ⟨5, 0, 0⟩).elevation
        = radians (-89) := by
  have hpi := Real.pi_pos
  have hlt := Real.pi_lt_d2
  have hlo : radians (-89) ≤ (0 : ℝ) := by simp only [radians]; nlinarith
  have hhi : (0 : ℝ) ≤ radians 89 := by simp only [radians]; nlinarith
  refine ⟨elevation_clamped.1 ⟨5, 0, 0⟩ _ hlo hhi ?_,
    elevation_clamped.2.1 _ 1 ⟨5, 0, 0⟩ (by norm_num) rfl rfl ?_,
    elevation_clamped.2.2 _ 1 ⟨5, 0, 0⟩ (by norm_num) rfl rfl ?_⟩
  · intro p hp
    rw [List.mem_singleton] at hp
    subst hp
    norm_num
  · simp only [radians, cameraRotationSpeed]; nlinarith
  · simp only [radians, cameraRotationSpeed]; nlinarith

/-- C5: starting from any distance within the clamp range, any sequence
of ProcessInput frames with nonnegative deltaTime and any keys keeps
the distance within 0.5 and 20 (every prefix of a sequence is itself
such a sequence, so the bound holds after each step); moreover a frame
whose zoom input overshoots a limit lands exactly on the corresponding
bound. -/
theorem distance_clamped :
    (∀ (st : OrbitState) (inputs : List (Keys × ℝ)),
        0.5 ≤ st.distanceFromTarget → st.distanceFromTarget ≤ 20 →
        (∀ p ∈ inputs, 0 ≤ p.2) →
        0.5 ≤ (runInputs st inputs).distanceFromTarget ∧
          (runInputs st inputs).distanceFromTarget ≤ 20) ∧
    (∀ (k : Keys) (dt : ℝ) (st : OrbitState), 0 ≤ dt →
        k.keyW = true → k.keyS = false →
        st.distanceFromTarget - cameraZoomSpeed * dt < 0.5 →
        (ProcessInput k dt st).distanceFromTarget = 0.5) ∧
    (∀ (k : Keys) (dt : ℝ) (st : OrbitState), 0 ≤ dt →
        k.keyW = false → k.keyS = true →
        20 < st.distanceFromTarget + cameraZoomSpeed * dt →
        (ProcessInput k dt st).distanceFromTarget = 20) := by
  refine ⟨?_, ?_, ?_⟩
  · intro st inputs h1 h2 hdt
    induction inputs generalizing st with
    | nil => exact ⟨h1, h2⟩
    | cons p rest ih =>
      have hstep := distance_step p.1 p.2 st (hdt p (List.mem_cons_self p rest)) h1 h2
      have hrest : ∀ q ∈ rest, 0 ≤ q.2 := fun q hq => hdt q (List.mem_cons_of_mem p hq)
      simpa [runInputs] using ih (ProcessInput p.1 p.2 st) hstep.1 hstep.2 hrest
  · intro k dt st hdt hw hs hover
    simp only [ProcessInput, hw, hs] at *
    simp [hover]
  · intro k dt st hdt hw hs hover
    simp only [ProcessInput, hw, hs] at *
    simp [hover]

/-- Witness for C5: one all-keys frame of one second from the initial
state, and single overshooting frames for each clamp. -/
theorem distance_clamped_witness :
    (0.5 ≤ (runInputs ⟨5, 0, 0⟩
        [(⟨true, true, true, true, true, true⟩, 1)]).distanceFromTarget ∧
      (runInputs ⟨5, 0, 0⟩
        [(⟨true, true, true, true, true, true⟩, 1)]).distanceFromTarget ≤ 20) ∧
    (ProcessInput ⟨false, false, true, false, false, false⟩ 1 ⟨5, 0, 0⟩).distanceFromTarget
        = 0.5 ∧
    (ProcessInput ⟨false, false, false, true, false, false⟩ 4 ⟨5, 0, 0⟩).distanceFromTarget
        = 20 := by
  refine ⟨distance_clamped.1 ⟨5, 0, 0⟩ _ (by norm_num) (by norm_num) ?_,
    distance_clamped.2.1 _ 1 ⟨5, 0, 0⟩ (by norm_num) rfl rfl ?_,
    distance_clamped.2.2 _ 4 ⟨5, 0, 0⟩ (by norm_num) rfl rfl ?_⟩
  · intro p hp
    rw [List.mem_singleton] at hp
    subst hp
    norm_num
  · simp only [cameraZoomSpeed]; norm_num
  · simp only [cameraZoomSpeed]; norm_num

end ModelViewer

namespace ModelViewer

/-- Unfolding of the face branch of processTokens. -/
theorem processTokens_face (st : ParseState) (toks : List String) :
    processTokens st ("f" :: toks) =
      match resolveFaceToken st.positions st.normals ((toks.get? 0).getD ""),
            resolveFaceToken st.positions st.normals ((toks.get? 1).getD ""),
            resolveFaceToken st.positions st.normals ((toks.get? 2).getD "") with
      | .ok v0, .ok v1, .ok v2 =>
        .ok { st with vertices := st.vertices ++ [v0, v1, v2] }
      | .error e, _, _ => .error e
      | .ok _, .error e, _ => .error e
      | .ok _, .ok _, .error e => .error e := by
  simp [processTokens]

/-- A line whose first token is none of v, vn, f leaves the state
unchanged. -/
theorem processTokens_other (st : ParseState) (toks : List String)
    (h : ((toks.head?).getD "") ∉ (["v", "vn", "f"] : List String)) :
    processTokens st toks = .ok st := by
  simp only [List.mem_cons, List.mem_singleton, not_or] at h
  simp [processTokens, h.1, h.2.1, h.2.2]

/-- Every ignorable line maps any state to itself. -/
theorem processLine_of_ignorable (st : ParseState) (l : String)
    (h : IgnorableLine l) : processLine st l = .ok st := by
  rcases h with h | h | h
  · unfold processLine
    rw [h]
  · unfold processLine
    cases hl : l.toList with
    | nil => rfl
    | cons c rest =>
      rw [hl] at h
      simp only [List.head?_cons, Option.some.injEq] at h
      simp [h]
  · unfold processLine
    cases hl : l.toList with
    | nil => rfl
    | cons c rest =>
      by_cases hc : c = '#'
      · simp [hc]
      · simp only [hc, if_false]
        exact processTokens_other st (tokenize l) h

end ModelViewer

namespace ModelViewer

/-- C9: inserting an ignorable line (empty, hash-first, or first token
none of v, vn, f) anywhere in the input leaves the parse result
unchanged (equivalently, removing it changes nothing); repeated
application covers any number of such lines. -/
theorem obj_ignored_lines (st : ParseState) (pre post : List String)
    (l : String) (h : IgnorableLine l) :
    processLines st (pre ++ l :: post) = processLines st (pre ++ post) := by
  induction pre generalizing st with
  | nil =>
    simp only [List.nil_append, processLines]
    rw [processLine_of_ignorable st l h]
  | cons c cs ih =>
    simp only [List.cons_append, processLines]
    cases hc : processLine st c with
    | ok st2 => exact ih st2
    | error e => rfl

/-- Witness for C9: a comment line dropped between a v line and a vn
line. -/
theorem obj_ignored_lines_witness :
    IgnorableLine "# comment" ∧
      processLines ⟨[], [], []⟩ ["v 1 2 3", "# comment", "vn 0 0 1"] =
        processLines ⟨[], [], []⟩ ["v 1 2 3", "vn 0 0 1"] :=
  ⟨by unfold IgnorableLine; decide,
    obj_ignored_lines ⟨[], [], []⟩ ["v 1 2 3"] ["vn 0 0 1"] "# comment" (by unfold IgnorableLine; decide)⟩

end ModelViewer

namespace ModelViewer

/-- An in-bounds element access succeeds with the listed element. -/
theorem vecIndex_eq_ok (l : List Vec3) (i : Int) (v : Vec3) (h0 : 0 ≤ i)
    (h : l.get? i.toNat = some v) : vecIndex l i = .ok v := by
  rcases List.get?_eq_some.mp h with ⟨hlt, hget⟩
  rw [vecIndex, dif_pos ⟨h0, hlt⟩, hget]

/-- An out-of-bounds element access fails with the bounds error. -/
theorem vecIndex_eq_error (l : List Vec3) (i : Int)
    (h : i < 0 ∨ (l.length : Int) ≤ i) :
    vecIndex l i = .error .indexOutOfBounds := by
  rw [vecIndex, dif_neg]
  rintro ⟨h0, hlt⟩
  omega

/-- A face token whose parsed indices fall outside the accumulated
positions or normals resolves to the bounds error. -/
theorem resolveFaceToken_oob (ps ns : List Vec3) (tok : String) (p n : Int)
    (hparse : parseFaceToken tok = .ok (p, n))
    (hbad : p < 0 ∨ (ps.length : Int) ≤ p ∨ n < 0 ∨ (ns.length : Int) ≤ n) :
    resolveFaceToken ps ns tok = .error .indexOutOfBounds := by
  simp only [resolveFaceToken, hparse]
  by_cases hpbad : p < 0 ∨ (ps.length : Int) ≤ p
  · simp [vecIndex_eq_error ps p hpbad]
  · push_neg at hpbad
    have hc : 0 ≤ p ∧ p.toNat < ps.length := by omega
    have hnbad : n < 0 ∨ (ns.length : Int) ≤ n := by
      rcases hbad with h | h | h | h
      · omega
      · omega
      · exact Or.inl h
      · exact Or.inr h
    rw [vecIndex, dif_pos hc]
    simp [vecIndex_eq_error ns n hnbad]

end ModelViewer

namespace ModelViewer

/-- C8: a face token whose 1-based position or normal reference is 0
(decremented index negative) or exceeds the count parsed so far
(decremented index at or past the length) makes the loader fail with
the bounds error instead of building a vertex; the second conjunct
propagates the failure of the first face token through the f line. -/
theorem obj_out_of_range_faces :
    (∀ (ps ns : List Vec3) (tok : String) (p n : Int),
        parseFaceToken tok = .ok (p, n) →
        (p < 0 ∨ (ps.length : Int) ≤ p ∨ n < 0 ∨ (ns.length : Int) ≤ n) →
        resolveFaceToken ps ns tok = .error .indexOutOfBounds) ∧
    (∀ (st : ParseState) (toks : List String) (p n : Int),
        parseFaceToken ((toks.get? 0).getD "") = .ok (p, n) →
        (p < 0 ∨ (st.positions.length : Int) ≤ p ∨
          n < 0 ∨ (st.normals.length : Int) ≤ n) →
        processTokens st ("f" :: toks) = .error .indexOutOfBounds) := by
  constructor
  · exact resolveFaceToken_oob
  · intro st toks p n hparse hbad
    rw [processTokens_face,
      resolveFaceToken_oob st.positions st.normals ((toks.get? 0).getD "")
        p n hparse hbad]

/-- Witness for C8: the token 0//1 (position reference 0) against a
state holding one position and one normal fails with the bounds
error. -/
theorem obj_out_of_range_faces_witness :
    parseFaceToken "0//1" = .ok (-1, 0) ∧
      processTokens ⟨[⟨0, 0, 0⟩], [⟨1, 0, 0⟩], []⟩ ["f", "0//1", "2//2", "3//3"]
        = .error .indexOutOfBounds := by
  constructor
  · rfl
  · exact obj_out_of_range_faces.2 ⟨[⟨0, 0, 0⟩], [⟨1, 0, 0⟩], []⟩
      ["0//1", "2//2", "3//3"] (-1) 0 (by rfl) (by norm_num)

end ModelViewer

namespace ModelViewer

/-- C7: an f line whose three tokens all resolve appends exactly those
three vertices in token order; a token parsing to 1-based indices P and
N (decremented in the code) selects the P-th position and the N-th
normal parsed so far; and the 4 v, 4 vn, 4 f example file yields
exactly the 12 vertices matching the referenced lines by index. -/
theorem obj_face_vertices :
    (∀ (st : ParseState) (toks : List String) (v0 v1 v2 : Vertex),
        resolveFaceToken st.positions st.normals ((toks.get? 0).getD "") = .ok v0 →
        resolveFaceToken st.positions st.normals ((toks.get? 1).getD "") = .ok v1 →
        resolveFaceToken st.positions st.normals ((toks.get? 2).getD "") = .ok v2 →
        processTokens st ("f" :: toks) =
          .ok { st with vertices := st.vertices ++ [v0, v1, v2] }) ∧
    (∀ (ps ns : List Vec3) (tok : String) (P N : ℕ) (pos nor : Vec3),
        1 ≤ P → 1 ≤ N →
        parseFaceToken tok = .ok ((P : Int) - 1, (N : Int) - 1) →
        ps.get? (P - 1) = some pos → ns.get? (N - 1) = some nor →
        resolveFaceToken ps ns tok = .ok ⟨pos, nor⟩) ∧
    LoadObjFile (some objFileExample) = .ok objExpectedVertices := by
  refine ⟨?_, ?_, ?_⟩
  · intro st toks v0 v1 v2 h0 h1 h2
    rw [processTokens_face, h0, h1, h2]
  · intro ps ns tok P N pos nor hP hN hparse hpos hnor
    simp only [resolveFaceToken, hparse]
    have hp : vecIndex ps ((P : Int) - 1) = .ok pos := by
      refine vecIndex_eq_ok ps _ pos (by omega) ?_
      have hT : ((P : Int) - 1).toNat = P - 1 := by omega
      rw [hT]
      exact hpos
    have hn : vecIndex ns ((N : Int) - 1) = .ok nor := by
      refine vecIndex_eq_ok ns _ nor (by omega) ?_
      have hT : ((N : Int) - 1).toNat = N - 1 := by omega
      rw [hT]
      exact hnor
    rw [hp, hn]
  · rfl

/-- Witness for C7: the first conjunct applied to the face line of a
one-position, one-normal state, and the second conjunct applied to the
token 1//1 there. -/
theorem obj_face_vertices_witness :
    processTokens ⟨[⟨1, 2, 3⟩], [⟨0, 0, 1⟩], []⟩ ["f", "1//1", "1//1", "1//1"] =
        .ok ⟨[⟨1, 2, 3⟩], [⟨0, 0, 1⟩],
          [⟨⟨1, 2, 3⟩, ⟨0, 0, 1⟩⟩, ⟨⟨1, 2, 3⟩, ⟨0, 0, 1⟩⟩, ⟨⟨1, 2, 3⟩, ⟨0, 0, 1⟩⟩]⟩ ∧
      resolveFaceToken [⟨1, 2, 3⟩] [⟨0, 0, 1⟩] "1//1" = .ok ⟨⟨1, 2, 3⟩, ⟨0, 0, 1⟩⟩ := by
  constructor
  · exact obj_face_vertices.1 ⟨[⟨1, 2, 3⟩], [⟨0, 0, 1⟩], []⟩ ["1//1", "1//1", "1//1"]
      ⟨⟨1, 2, 3⟩, ⟨0, 0, 1⟩⟩ ⟨⟨1, 2, 3⟩, ⟨0, 0, 1⟩⟩ ⟨⟨1, 2, 3⟩, ⟨0, 0, 1⟩⟩
      (by rfl) (by rfl) (by rfl)
  · exact obj_face_vertices.2.1 [⟨1, 2, 3⟩] [⟨0, 0, 1⟩] "1//1" 1 1 ⟨1, 2, 3⟩ ⟨0, 0, 1⟩
      (by norm_num) (by norm_num) (by rfl) (by rfl) (by rfl)

end ModelViewer

namespace ModelViewer

/-- C10: on a face token without a double slash, find yields npos and
the start of the normal substring is npos + 2, which wraps to 1 in
std::size_t, so the normal index is parsed from the token minus its
first character: the single-character token 7 fails with the numeric
conversion error (stoi on an empty string), while the token 12 parses
as position index 12 with normal index 2 (stored decremented as 11 and
1) instead of being rejected. -/
theorem face_token_no_separator :
    ((nposVal + 2) % 2 ^ 64 = 1) ∧
    (∀ tok : String, findDoubleSlash tok.toList 0 = none →
        tok.toList.length ≤ nposVal →
        parseFaceToken tok =
          match stoiE tok.toList with
          | .error e => .error e
          | .ok pRaw =>
            if 1 ≤ tok.toList.length then
              match stoiE (tok.toList.drop 1) with
              | .error e => .error e
              | .ok nRaw => .ok (pRaw - 1, nRaw - 1)
            else .error .outOfRange) ∧
    parseFaceToken "7" = .error .invalidArgument ∧
    parseFaceToken "12" = .ok (11, 1) := by
  have hmod : (nposVal + 2) % 2 ^ 64 = 1 := by norm_num [nposVal]
  refine ⟨hmod, ?_, rfl, rfl⟩
  intro tok hfind hlen
  simp only [parseFaceToken, hfind, Option.getD_none, hmod,
    List.take_of_length_le hlen]

/-- Witness for C10: the token 12 has no double slash, its length is
within the size_t range, and the wrapped parse applies to it. -/
theorem face_token_no_separator_witness :
    findDoubleSlash ("12" : String).toList 0 = none ∧
      ("12" : String).toList.length ≤ nposVal ∧
      parseFaceToken "12" =
        match stoiE ("12" : String).toList with
        | .error e => .error e
        | .ok pRaw =>
          if 1 ≤ ("12" : String).toList.length then
            match stoiE (("12" : String).toList.drop 1) with
            | .error e => .error e
            | .ok nRaw => .ok (pRaw - 1, nRaw - 1)
          else .error .outOfRange :=
  ⟨rfl, by norm_num [nposVal],
    face_token_no_separator.2.1 "12" rfl (by norm_num [nposVal])⟩

end ModelViewer
